import Mathlib

/-!
Verification development for the carpark-client negotiation skill.

The definitions below are a shallow embedding of
`packages/fetchai/skills/carpark_client/handlers.py`:
`FipaHandler._handle_propose` (buffering, barrier check, decision pass),
`FipaHandler._handle_propose_send` (reply fan-out and round reset) and
`OefSearchHandler._handle_search` (search-result handling, CFP fan-out).
The strategy object (`carpark_client/strategy.py`) is an external
capability of the handlers; it is represented as a record of its function
fields, and the handlers are parameterised over it exactly as the source
accesses `self.context.strategy`.  Logging calls are ignored.
-/

namespace Carpark

/-- FIPA performatives used by the handler (`FipaMessage.Performative`). -/
inductive Performative where
  | cfp
  | propose
  | accept
  | decline
deriving DecidableEq, Repr

/-- The proposal description carried by a PROPOSE message; the handler never
inspects it beyond handing it to the strategy, whose modelled ranking reads
a price. -/
structure CarparkProposal where
  price : Nat
deriving DecidableEq, Repr

/-- An inbound FIPA message as seen by `_handle_propose`: its sender address,
the dialogue it is correlated to, and its proposal payload. -/
structure FipaMsg where
  sender : String
  dialogueId : Nat
  proposal : CarparkProposal
deriving DecidableEq, Repr

/-- One entry of `strategy.received_proposals`: the dict
`{"sender": ..., "message": ..., "decision": ...}` built at handlers.py:60-69.
`decision` is `none` while undecided (`None` in the source). -/
structure ReceivedProposal where
  sender : String
  message : FipaMsg
  decision : Option Performative
deriving DecidableEq, Repr

/-- Terms attached to an accepted dialogue; derived by the strategy from the
proposal and the counterparty. -/
abbrev Terms := CarparkProposal × String

/-- Per-dialogue state, per the FIPA dialogue lifecycle. -/
inductive DialogueState where
  | cfpSent
  | proposeReceived
  | accepted
  | declined
deriving DecidableEq, Repr

/-- A FIPA dialogue as the handlers touch it: its state and the terms slot
written by `fipa_dialogue.terms = terms` (handlers.py:106). -/
structure Dialogue where
  state : DialogueState
  terms : Option Terms
deriving DecidableEq, Repr

/-- The strategy functions the handlers call.  The strategy implementation is
external to the handler code; the handlers treat each field as opaque. -/
structure Strategy where
  is_acceptable_proposal : CarparkProposal → Bool
  is_affordable_proposal : CarparkProposal → Bool
  get_cheapest_proposal : List ReceivedProposal → ReceivedProposal
  terms_from_proposal : CarparkProposal → String → Terms
  get_acceptable_counterparties : List String → List String
  get_service_query : String
  is_stop_searching_on_result : Bool

/-- The mutable strategy state the handlers read and write:
`sent_proposals`, `received_proposals` and `is_searching`. -/
structure StrategyState where
  sent_proposals : List String
  received_proposals : List ReceivedProposal
  is_searching : Bool
deriving DecidableEq, Repr

/-- A reply message built by `fipa_dialogue.reply(performative=...,
target_message=...)` (handlers.py:107-110).  `dialogueTermsAtBuild` records
the terms slot of the dialogue at the moment the reply is built, capturing
the source ordering where `fipa_dialogue.terms = terms` precedes `reply`. -/
structure Reply where
  dialogueId : Nat
  performative : Option Performative
  target : FipaMsg
  dialogueTermsAtBuild : Option Terms
deriving DecidableEq, Repr

/-- An outbound CFP handed to the outbox by `_handle_search`
(handlers.py:144-150). -/
structure CfpOut where
  counterparty : String
  query : String
deriving DecidableEq, Repr

/-- handlers.py:59-69 — append the incoming proposal to
`strategy.received_proposals`, pre-setting the decision slot to DECLINE when
the strategy finds it unacceptable or unaffordable, and leaving it `None`
otherwise.  `sent_proposals` and `is_searching` are untouched. -/
def buffer_proposal (s : Strategy) (st : StrategyState) (m : FipaMsg) : StrategyState :=
  { st with received_proposals := st.received_proposals ++
      [ { sender := m.sender
          message := m
          decision :=
            if s.is_acceptable_proposal m.proposal = false
                ∨ s.is_affordable_proposal m.proposal = false
            then some Performative.decline
            else none } ] }

/-- handlers.py:74-85 — the decision body run once the barrier closes:
filter the undecided proposals; if any remain, ask the strategy for the
cheapest and mark each undecided entry ACCEPT when its sender matches the
cheapest one's sender, DECLINE otherwise.  Already-decided entries are left
as they are. -/
def decision_pass (s : Strategy) (received : List ReceivedProposal) :
    List ReceivedProposal :=
  let undecided := received.filter (fun x => x.decision = none)
  if undecided.isEmpty then received
  else
    let cheapest := s.get_cheapest_proposal undecided
    received.map (fun c =>
      if c.decision = none then
        let verdict := if cheapest.sender = c.sender
                       then Performative.accept else Performative.decline
        { c with decision := some verdict }
      else c)

/-- The marking function the decision body applies to each buffered entry
once the barrier closes with at least one undecided proposal
(handlers.py:79-85): pending entries are marked ACCEPT when their sender
matches the sender of the strategy's cheapest pick among the undecided
entries of `received`, DECLINE otherwise; decided entries are untouched.
Definitionally equal to the per-entry update inside `decision_pass`. -/
def mark_against (s : Strategy) (received : List ReceivedProposal)
    (c : ReceivedProposal) : ReceivedProposal :=
  if c.decision = none then
    let verdict :=
      if (s.get_cheapest_proposal
            (received.filter (fun x => x.decision = none))).sender = c.sender
      then Performative.accept else Performative.decline
    { c with decision := some verdict }
  else c

/-- The result of `_handle_propose_send`: the updated dialogue store, the
replies handed to the outbox in order, and the reset strategy state. -/
structure SendResult where
  dialogues : Nat → Dialogue
  replies : List Reply
  state : StrategyState

/-- One iteration of the loop at handlers.py:95-111: look the dialogue up by
the buffered message, attach terms when the decision is ACCEPT, build the
reply from the dialogue and append it to the outbox. -/
def send_step (s : Strategy) (acc : (Nat → Dialogue) × List Reply)
    (carpark : ReceivedProposal) : (Nat → Dialogue) × List Reply :=
  let d0 := acc.1 carpark.message.dialogueId
  let newTerms := some (s.terms_from_proposal carpark.message.proposal carpark.sender)
  let d :=
    if carpark.decision = some Performative.accept then
      { d0 with terms := newTerms }
    else d0
  (fun i => if i = carpark.message.dialogueId then d else acc.1 i,
   acc.2 ++ [ { dialogueId := carpark.message.dialogueId
                performative := carpark.decision
                target := carpark.message
                dialogueTermsAtBuild := d.terms } ])

/-- handlers.py:88-113 — `_handle_propose_send`: iterate over
`received_proposals` in order emitting one reply each, then reset
`received_proposals` and `sent_proposals` to empty lists. -/
def handle_propose_send (s : Strategy) (ds : Nat → Dialogue)
    (st : StrategyState) : SendResult :=
  let r := st.received_proposals.foldl (send_step s) (ds, [])
  { dialogues := r.1
    replies := r.2
    state := { st with received_proposals := [], sent_proposals := [] } }

/-- The observable outcome of one `_handle_propose` call. -/
structure ProposeResult where
  dialogues : Nat → Dialogue
  replies : List Reply
  state : StrategyState
  decision_ran : Bool

/-- handlers.py:46-86 — `_handle_propose`: buffer the proposal, then, when
`len(received_proposals) == len(sent_proposals)`, run the decision body and
`_handle_propose_send`. -/
def handle_propose (s : Strategy) (ds : Nat → Dialogue) (st : StrategyState)
    (m : FipaMsg) : ProposeResult :=
  let st1 := buffer_proposal s st m
  if st1.received_proposals.length = st1.sent_proposals.length then
    let st2 := { st1 with
      received_proposals := decision_pass s st1.received_proposals }
    let r := handle_propose_send s ds st2
    { dialogues := r.dialogues
      replies := r.replies
      state := r.state
      decision_ran := true }
  else
    { dialogues := ds, replies := [], state := st1, decision_ran := false }

/-- handlers.py:119-152 — `_handle_search`: an empty agent list returns at
once with no state change; otherwise the searching flag is lowered when
`is_stop_searching_on_result` holds, and one CFP is produced per acceptable
counterparty while its id is appended to `sent_proposals`.  The dialogue
store effect of `fipa_dialogues.create` is not modelled: no claim reads it. -/
def handle_search (s : Strategy) (st : StrategyState) (agents : List String) :
    StrategyState × List CfpOut :=
  if agents.length = 0 then (st, [])
  else
    let st1 := if s.is_stop_searching_on_result
               then { st with is_searching := false } else st
    let query := s.get_service_query
    let counterparties := s.get_acceptable_counterparties agents
    let r := counterparties.foldl
      (fun (acc : List String × List CfpOut) c =>
        (acc.1 ++ [c], acc.2 ++ [ { counterparty := c, query := query } ]))
      (st1.sent_proposals, [])
    ({ st1 with sent_proposals := r.1 }, r.2)

/-- A straight-line run of `_handle_propose` calls with no intervening
search result: each message is handled to completion before the next.  The
boolean records whether any call ran the decision pass. -/
def run_propose_calls (s : Strategy) (ds : Nat → Dialogue) (st : StrategyState)
    (msgs : List FipaMsg) : StrategyState × Bool :=
  match msgs with
  | [] => (st, false)
  | m :: rest =>
    let r := handle_propose s ds st m
    let t := run_propose_calls s r.dialogues r.state rest
    (t.1, r.decision_ran || t.2)

/-- Number of buffered proposals whose decision slot holds ACCEPT. -/
def num_accept (l : List ReceivedProposal) : Nat :=
  l.countP (fun c => c.decision = some Performative.accept)

/-- Number of buffered proposals whose decision slot holds DECLINE. -/
def num_decline (l : List ReceivedProposal) : Nat :=
  l.countP (fun c => c.decision = some Performative.decline)

/-- Number of replies carrying the ACCEPT performative. -/
def num_accept_replies (l : List Reply) : Nat :=
  l.countP (fun r => r.performative = some Performative.accept)

/-- Modelled from the spec: `StrategyPolicy.cheapest` — the strategy's
`get_cheapest_proposal` lives in `carpark_client/strategy.py`, which is not
among the sampled sources.  Per the spec it selects the minimum-cost element
of a non-empty list of pending proposals with a deterministic tie-break;
here: the first proposal of minimal price. -/
def cheapest_by_price (l : List ReceivedProposal) : ReceivedProposal :=
  match l with
  | [] => { sender := "", message := { sender := "", dialogueId := 0, proposal := { price := 0 } }, decision := none }
  | h :: t => t.foldl
      (fun best x =>
        if x.message.proposal.price < best.message.proposal.price then x else best)
      h

/-- A concrete strategy instance used by witnesses and counterexamples:
every proposal is acceptable and affordable, ranking is the modelled
minimum-price selection, and terms simply pair the proposal with the
counterparty. -/
def demoStrategy : Strategy :=
  { is_acceptable_proposal := fun _ => true
    is_affordable_proposal := fun _ => true
    get_cheapest_proposal := cheapest_by_price
    terms_from_proposal := fun p c => (p, c)
    get_acceptable_counterparties := fun cs => cs
    get_service_query := "q"
    is_stop_searching_on_result := true }

/-- A dialogue store with every dialogue awaiting a proposal. -/
def dsAllCfp : Nat → Dialogue :=
  fun _ => { state := DialogueState.cfpSent, terms := none }

/-- Concrete message: sender `x`, dialogue 0, price 5. -/
def msgX5 : FipaMsg := { sender := "x", dialogueId := 0, proposal := { price := 5 } }

/-- Concrete message: sender `x`, dialogue 1, price 7. -/
def msgX7 : FipaMsg := { sender := "x", dialogueId := 1, proposal := { price := 7 } }

/-- Concrete message: sender `y`, dialogue 2, price 9. -/
def msgY9 : FipaMsg := { sender := "y", dialogueId := 2, proposal := { price := 9 } }

/-- Undecided buffer entry for `msgX5`. -/
def rpX5 : ReceivedProposal := { sender := "x", message := msgX5, decision := none }

/-- Undecided buffer entry for `msgX7`. -/
def rpX7 : ReceivedProposal := { sender := "x", message := msgX7, decision := none }

/-- Undecided buffer entry for `msgY9`. -/
def rpY9 : ReceivedProposal := { sender := "y", message := msgY9, decision := none }

/-- A round in which two CFPs went to the same counterparty `x` (reachable:
`sent_proposals` accumulates one entry per CFP and the same agent may be
returned by successive searches). -/
def twoSentToX : StrategyState :=
  { sent_proposals := ["x", "x"], received_proposals := [], is_searching := false }

/-- Pending proposal from sender `a` at cost 15 (spec scenario P5). -/
def rpA15 : ReceivedProposal :=
  { sender := "a", message := { sender := "a", dialogueId := 3, proposal := { price := 15 } },
    decision := none }

/-- Pending proposal from sender `b` at cost 9 (spec scenario P5). -/
def rpB9 : ReceivedProposal :=
  { sender := "b", message := { sender := "b", dialogueId := 4, proposal := { price := 9 } },
    decision := none }

/-- Pending proposal from sender `c` at cost 11 (spec scenario P5). -/
def rpC11 : ReceivedProposal :=
  { sender := "c", message := { sender := "c", dialogueId := 5, proposal := { price := 11 } },
    decision := none }

/-- The reply `send_step` builds for entry `c` when the dialogue store still
holds `ds` unmodified at the entry's dialogue id: the performative is the
entry's decision slot, the target is the buffered message, and the terms
visible at build time are the freshly attached ones for an ACCEPT decision
and the dialogue's pre-existing ones otherwise.  Used to state the fan-out
theorem; not itself part of the embedded code. -/
def reply_of (s : Strategy) (ds : Nat → Dialogue) (c : ReceivedProposal) : Reply :=
  { dialogueId := c.message.dialogueId
    performative := c.decision
    target := c.message
    dialogueTermsAtBuild :=
      if c.decision = some Performative.accept
      then some (s.terms_from_proposal c.message.proposal c.sender)
      else (ds c.message.dialogueId).terms }

/-- Errors of the inbound dispatch layer, per spec §7. -/
inductive HandlerError where
  | unknownDialogue
  | protocolViolation
deriving DecidableEq, Repr

/-- Modelled from the spec: the dialogue resolution and transition-legality
check that run before `_handle_propose` live in the generic FIPA handler and
the dialogue classes of the `generic_buyer` skill, which are not among the
sampled sources.  Per spec §4.3/§7, `onProposalReceived` resolves the
Dialogue by the message's correlation id (failing with `UnknownDialogue`
when no dialogue matches), fails with `ProtocolViolation` without buffering
when the dialogue is not in state CFP_SENT, and otherwise advances the
dialogue to PROPOSE_RECEIVED and buffers the proposal. -/
def on_proposal_received (s : Strategy) (ds : Nat → Option Dialogue)
    (st : StrategyState) (m : FipaMsg) :
    Except HandlerError ((Nat → Option Dialogue) × StrategyState) :=
  (ds m.dialogueId).elim (Except.error HandlerError.unknownDialogue)
    (fun d =>
      if d.state = DialogueState.cfpSent then
        Except.ok
          (fun i => if i = m.dialogueId
                    then some { d with state := DialogueState.proposeReceived }
                    else ds i,
           buffer_proposal s st m)
      else Except.error HandlerError.protocolViolation)

/-- An optional-dialogue store whose every dialogue already consumed its
proposal: any further PROPOSE is a protocol violation. -/
def dsAllProposeReceived : Nat → Option Dialogue :=
  fun _ => some { state := DialogueState.proposeReceived, terms := none }

/-- An optional-dialogue store with every dialogue awaiting a proposal. -/
def dsAllCfpOpt : Nat → Option Dialogue :=
  fun _ => some { state := DialogueState.cfpSent, terms := none }

end Carpark

namespace RegistryClient

/-- A parsed JSON object body, abstracted to its string fields. -/
abbrev JsonBody := List (String × String)

/-- The `detail` field of a JSON body, which a 409 response surfaces. -/
def detail_of (b : JsonBody) : Option String :=
  (b.find? (fun kv => kv.1 = "detail")).map (fun kv => kv.2)

/-- What one HTTP attempt against the registry produced: a response with a
status code and parsed body, or a connection failure. -/
inductive HttpOutcome where
  | response (status : Nat) (body : JsonBody)
  | connectionFailure
deriving DecidableEq, Repr

/-- A user-facing CLI error (a `ClickException` in the tests). -/
inductive CliError where
  | conflictDetail (detail : Option String)
  | httpError (status : Nat)
  | connectionFailed
deriving DecidableEq, Repr

/-- Modelled from the spec: `request_api` in `aea/cli/registry/utils.py` is
not among the sampled sources — only its tests are.  Per spec §6/§7 and the
tests in `tests/test_cli/test_registry/test_utils.py`: a 2xx response
returns the parsed JSON body; a 409 response surfaces the server's `detail`
field as a CLI error; every other non-2xx response and every connection
failure surfaces as a CLI error, with no retry (the function is a single
attempt). -/
def request_api (o : HttpOutcome) : Except CliError JsonBody :=
  match o with
  | HttpOutcome.connectionFailure => Except.error CliError.connectionFailed
  | HttpOutcome.response status body =>
    if 200 ≤ status ∧ status < 300 then Except.ok body
    else if status = 409 then Except.error (CliError.conflictDetail (detail_of body))
    else Except.error (CliError.httpError status)

end RegistryClient

namespace Carpark

/-! Basic lemmas about the buffering step -/

theorem buffer_proposal_sent (s : Strategy) (st : StrategyState) (m : FipaMsg) :
    (buffer_proposal s st m).sent_proposals = st.sent_proposals := rfl

theorem buffer_proposal_searching (s : Strategy) (st : StrategyState) (m : FipaMsg) :
    (buffer_proposal s st m).is_searching = st.is_searching := rfl

theorem buffer_proposal_length (s : Strategy) (st : StrategyState) (m : FipaMsg) :
    (buffer_proposal s st m).received_proposals.length
      = st.received_proposals.length + 1 := by
  simp [buffer_proposal]

/-! Claim theorems -/

/-- Claim C5: after every decision pass completes — that is, after
`_handle_propose_send` returns, and hence whenever `_handle_propose` ran the
decision pass — both `sent_proposals` and `received_proposals` are empty, so
nothing carries over into the next round. -/
theorem c5_round_reset (s : Strategy) (ds : Nat → Dialogue) (st : StrategyState)
    (m : FipaMsg) :
    ((handle_propose_send s ds st).state.sent_proposals = [] ∧
      (handle_propose_send s ds st).state.received_proposals = []) ∧
    ((handle_propose s ds st m).decision_ran = true →
      (handle_propose s ds st m).state.sent_proposals = [] ∧
      (handle_propose s ds st m).state.received_proposals = []) := by
  constructor
  · exact ⟨rfl, rfl⟩
  · intro hran
    simp only [handle_propose] at hran ⊢
    by_cases h : (buffer_proposal s st m).received_proposals.length
        = (buffer_proposal s st m).sent_proposals.length
    · rw [if_pos h]
      exact ⟨rfl, rfl⟩
    · rw [if_neg h] at hran
      simp at hran

/-- Witness for C5 at a concrete firing call: one sent entry, matching
proposal arrives, the pass runs and the state is fully reset. -/
theorem c5_round_reset_witness :
    (handle_propose demoStrategy dsAllCfp
        { sent_proposals := ["x"], received_proposals := [], is_searching := false }
        msgX5).decision_ran = true ∧
    (handle_propose demoStrategy dsAllCfp
        { sent_proposals := ["x"], received_proposals := [], is_searching := false }
        msgX5).state.sent_proposals = [] ∧
    (handle_propose demoStrategy dsAllCfp
        { sent_proposals := ["x"], received_proposals := [], is_searching := false }
        msgX5).state.received_proposals = [] :=
  ⟨by decide,
   (c5_round_reset demoStrategy dsAllCfp
      { sent_proposals := ["x"], received_proposals := [], is_searching := false }
      msgX5).2 (by decide)⟩

/-- Claim C8: a search-result message with an empty candidate sequence
changes no state — the searching flag, the sent list and the received buffer
are all unchanged — and produces no outbound message. -/
theorem c8_empty_search_noop (s : Strategy) (st : StrategyState)
    (agents : List String) (h : agents.length = 0) :
    handle_search s st agents = (st, []) := by
  unfold handle_search
  simp [h]

/-- Witness for C8: the empty candidate list at a concrete state. -/
theorem c8_empty_search_witness :
    ([] : List String).length = 0 ∧
    handle_search demoStrategy twoSentToX [] = (twoSentToX, []) :=
  ⟨rfl, c8_empty_search_noop demoStrategy twoSentToX [] rfl⟩

/-- Claim C4: the entry appended to the received buffer carries decision
DECLINE exactly when the strategy's acceptability or affordability check
fails, and carries no decision (pending) exactly when both pass; this is
decided at buffering time, in `buffer_proposal`, before the barrier check
even runs. -/
theorem c4_predecline_on_buffer (s : Strategy) (st : StrategyState) (m : FipaMsg) :
    ∃ e : ReceivedProposal,
      (buffer_proposal s st m).received_proposals
        = st.received_proposals ++ [e] ∧
      e.sender = m.sender ∧ e.message = m ∧
      (e.decision = some Performative.decline ↔
        (s.is_acceptable_proposal m.proposal = false ∨
          s.is_affordable_proposal m.proposal = false)) ∧
      (e.decision = none ↔
        (s.is_acceptable_proposal m.proposal = true ∧
          s.is_affordable_proposal m.proposal = true)) := by
  refine ⟨_, rfl, rfl, rfl, ?_, ?_⟩ <;>
    cases hacc : s.is_acceptable_proposal m.proposal <;>
      cases haff : s.is_affordable_proposal m.proposal <;>
        simp [hacc, haff]

/-- Witness for C4 at a strategy that rejects expensive proposals: the
cheap proposal stays pending, the expensive one is pre-declined. -/
theorem c4_predecline_witness :
    ∃ e : ReceivedProposal,
      (buffer_proposal demoStrategy twoSentToX msgX5).received_proposals
        = twoSentToX.received_proposals ++ [e] ∧
      e.sender = msgX5.sender ∧ e.message = msgX5 ∧
      (e.decision = some Performative.decline ↔
        (demoStrategy.is_acceptable_proposal msgX5.proposal = false ∨
          demoStrategy.is_affordable_proposal msgX5.proposal = false)) ∧
      (e.decision = none ↔
        (demoStrategy.is_acceptable_proposal msgX5.proposal = true ∧
          demoStrategy.is_affordable_proposal msgX5.proposal = true)) :=
  c4_predecline_on_buffer demoStrategy twoSentToX msgX5

/-- Claim C1: for every `_handle_propose` call, the decision pass runs iff
the received buffer after appending the incoming proposal has exactly the
length of the sent list; whenever it runs, the call leaves both lists empty
(the intervening reset separating it from any later pass of a new round),
and the sent list was necessarily non-empty. -/
theorem c1_barrier_iff_and_reset (s : Strategy) (ds : Nat → Dialogue)
    (st : StrategyState) (m : FipaMsg) :
    ((handle_propose s ds st m).decision_ran = true ↔
      (buffer_proposal s st m).received_proposals.length
        = st.sent_proposals.length) ∧
    ((handle_propose s ds st m).decision_ran = true →
      (handle_propose s ds st m).state.sent_proposals = [] ∧
      (handle_propose s ds st m).state.received_proposals = []) ∧
    ((handle_propose s ds st m).decision_ran = true →
      st.sent_proposals ≠ []) := by
  have hlen := buffer_proposal_length s st m
  simp only [handle_propose]
  split
  case isTrue h =>
    have hsent : (buffer_proposal s st m).sent_proposals = st.sent_proposals := rfl
    rw [hsent] at h
    refine ⟨by simp [h], fun _ => ⟨rfl, rfl⟩, fun _ => ?_⟩
    intro hnil
    rw [hnil, hlen] at h
    simp at h
  case isFalse h =>
    have hsent : (buffer_proposal s st m).sent_proposals = st.sent_proposals := rfl
    rw [hsent] at h
    simp [h]

/-- Witness for C1 at a concrete firing call: with one sent entry and an
empty buffer the appended proposal closes the barrier, the pass runs and
the state resets. -/
theorem c1_barrier_witness :
    ((handle_propose demoStrategy dsAllCfp
        { sent_proposals := ["y"], received_proposals := [], is_searching := false }
        msgY9).decision_ran = true ↔
      (buffer_proposal demoStrategy
        { sent_proposals := ["y"], received_proposals := [], is_searching := false }
        msgY9).received_proposals.length = 1) ∧
    (handle_propose demoStrategy dsAllCfp
        { sent_proposals := ["y"], received_proposals := [], is_searching := false }
        msgY9).state.sent_proposals = [] ∧
    (handle_propose demoStrategy dsAllCfp
        { sent_proposals := ["y"], received_proposals := [], is_searching := false }
        msgY9).state.received_proposals = [] :=
  ⟨(c1_barrier_iff_and_reset demoStrategy dsAllCfp
      { sent_proposals := ["y"], received_proposals := [], is_searching := false }
      msgY9).1,
   (c1_barrier_iff_and_reset demoStrategy dsAllCfp
      { sent_proposals := ["y"], received_proposals := [], is_searching := false }
      msgY9).2.1 (by decide)⟩

/-- When the buffer is already strictly longer than the sent list, one more
`_handle_propose` call appends without firing the barrier. -/
theorem handle_propose_overfull_step (s : Strategy) (ds : Nat → Dialogue)
    (st : StrategyState) (m : FipaMsg)
    (h : st.sent_proposals.length < st.received_proposals.length) :
    handle_propose s ds st m
      = { dialogues := ds, replies := [], state := buffer_proposal s st m,
          decision_ran := false } := by
  have hlen := buffer_proposal_length s st m
  have hsent : (buffer_proposal s st m).sent_proposals = st.sent_proposals := rfl
  have hne : ¬ ((buffer_proposal s st m).received_proposals.length
      = (buffer_proposal s st m).sent_proposals.length) := by
    rw [hlen, hsent]
    omega
  simp only [handle_propose]
  rw [if_neg hne]

/-- Claim C10: once the received buffer is strictly longer than the sent
list, no later `_handle_propose` call (with no intervening search result or
reset) ever runs the decision pass: the barrier tests exact equality while
the buffer only grows, so the round never completes.  The sent list stays
as it was and the buffer grows by exactly one entry per call. -/
theorem c10_overfull_barrier_stalls (s : Strategy) (ds : Nat → Dialogue)
    (st : StrategyState) (msgs : List FipaMsg)
    (h : st.sent_proposals.length < st.received_proposals.length) :
    (run_propose_calls s ds st msgs).2 = false ∧
    (run_propose_calls s ds st msgs).1.sent_proposals = st.sent_proposals ∧
    (run_propose_calls s ds st msgs).1.received_proposals.length
      = st.received_proposals.length + msgs.length := by
  induction msgs generalizing ds st with
  | nil => simp [run_propose_calls]
  | cons m rest ih =>
    have hstep := handle_propose_overfull_step s ds st m h
    have hlen := buffer_proposal_length s st m
    have hsent : (buffer_proposal s st m).sent_proposals = st.sent_proposals := rfl
    have h2 : (buffer_proposal s st m).sent_proposals.length
        < (buffer_proposal s st m).received_proposals.length := by
      rw [hlen, hsent]
      omega
    have := ih (handle_propose s ds st m).dialogues (buffer_proposal s st m) h2
    simp only [run_propose_calls, hstep]
    refine ⟨?_, ?_, ?_⟩
    · rw [hstep] at this
      simpa using this.1
    · rw [hstep] at this
      simpa [hsent] using this.2.1
    · rw [hstep] at this
      rw [this.2.2, hlen]
      simp [List.length_cons]
      omega

/-- Witness for C10: a buffer of two proposals against a single sent entry
never completes, whatever arrives next. -/
theorem c10_overfull_witness :
    ({ sent_proposals := ["x"], received_proposals := [rpX5, rpX7],
       is_searching := false } : StrategyState).sent_proposals.length
      < ({ sent_proposals := ["x"], received_proposals := [rpX5, rpX7],
           is_searching := false } : StrategyState).received_proposals.length ∧
    (run_propose_calls demoStrategy dsAllCfp
      { sent_proposals := ["x"], received_proposals := [rpX5, rpX7],
        is_searching := false } [msgY9, msgX5]).2 = false :=
  ⟨by decide,
   (c10_overfull_barrier_stalls demoStrategy dsAllCfp
      { sent_proposals := ["x"], received_proposals := [rpX5, rpX7],
        is_searching := false } [msgY9, msgX5] (by decide)).1⟩

/-! Counting lemmas for the decision pass -/

/-- In a buffer whose senders are pairwise distinct, at most one entry
matches any given sender. -/
theorem countP_sender_le_one (a : String) (l : List ReceivedProposal)
    (h : (l.map (fun c => c.sender)).Nodup) :
    l.countP (fun c => a = c.sender) ≤ 1 := by
  induction l with
  | nil => simp
  | cons x t ih =>
    rw [List.map_cons, List.nodup_cons] at h
    rw [List.countP_cons]
    by_cases hx : a = x.sender
    · have hzero : t.countP (fun c => a = c.sender) = 0 := by
        rw [List.countP_eq_zero]
        intro c hc
        simp only [decide_eq_true_eq]
        intro hac
        exact h.1 (by
          rw [hx] at hac
          exact hac ▸ List.mem_map_of_mem (fun c => c.sender) hc)
      rw [hzero]
      simp [hx]
    · simp [hx]
      exact ih h.2

/-- The decision pass does not change how many proposals were received. -/
theorem decision_pass_length (s : Strategy) (received : List ReceivedProposal) :
    (decision_pass s received).length = received.length := by
  simp only [decision_pass]
  split
  · rfl
  · simp

/-- After the decision pass every buffered proposal whose slot held `none`
or DECLINE ends up holding ACCEPT or DECLINE. -/
theorem decision_pass_all_decided (s : Strategy) (received : List ReceivedProposal)
    (hpre : ∀ c ∈ received,
      c.decision = none ∨ c.decision = some Performative.decline) :
    ∀ c ∈ decision_pass s received,
      c.decision = some Performative.accept ∨
      c.decision = some Performative.decline := by
  simp only [decision_pass]
  split
  case isTrue hE =>
    intro c hc
    rcases hpre c hc with hnone | hdec
    · exfalso
      rw [List.isEmpty_iff, List.filter_eq_nil_iff] at hE
      exact hE c hc (by simp [hnone])
    · exact Or.inr hdec
  case isFalse hE =>
    intro c hc
    rw [List.mem_map] at hc
    obtain ⟨c0, hc0, rfl⟩ := hc
    by_cases hn : c0.decision = none
    · rw [if_pos hn]
      by_cases hs : (s.get_cheapest_proposal
          (received.filter (fun x => x.decision = none))).sender = c0.sender
      · simp [hs]
      · simp [hs]
    · rw [if_neg hn]
      rcases hpre c0 hc0 with h | h
      · exact absurd h hn
      · exact Or.inr h

/-- A buffer in which every entry holds ACCEPT or DECLINE satisfies
`#accept + #decline = #entries`. -/
theorem accept_add_decline (l : List ReceivedProposal)
    (h : ∀ c ∈ l, c.decision = some Performative.accept ∨
      c.decision = some Performative.decline) :
    num_accept l + num_decline l = l.length := by
  induction l with
  | nil => simp [num_accept, num_decline]
  | cons x t ih =>
    have hx := h x (List.mem_cons_self x t)
    have ht : ∀ c ∈ t, c.decision = some Performative.accept ∨
        c.decision = some Performative.decline :=
      fun c hc => h c (List.mem_cons_of_mem x hc)
    have iht := ih ht
    simp only [num_accept, num_decline, List.countP_cons, List.length_cons] at *
    rcases hx with hx | hx <;> simp [hx] <;> omega

/-- With pairwise-distinct senders and no pre-existing ACCEPT, the decision
pass produces at most one ACCEPT. -/
theorem num_accept_pass_le_one (s : Strategy) (received : List ReceivedProposal)
    (hnd : (received.map (fun c => c.sender)).Nodup)
    (hpre : ∀ c ∈ received, c.decision ≠ some Performative.accept) :
    num_accept (decision_pass s received) ≤ 1 := by
  simp only [num_accept, decision_pass]
  split
  case isTrue hE =>
    have hzero : received.countP
        (fun c => c.decision = some Performative.accept) = 0 := by
      rw [List.countP_eq_zero]
      intro c hc
      simpa using hpre c hc
    omega
  case isFalse hE =>
    rw [List.countP_map]
    calc received.countP _
        ≤ received.countP (fun c =>
            (s.get_cheapest_proposal
              (received.filter (fun x => x.decision = none))).sender = c.sender) := by
          apply List.countP_mono_left
          intro c hc hacc
          simp only [Function.comp, decide_eq_true_eq] at hacc
          simp only [decide_eq_true_eq]
          by_cases hn : c.decision = none
          · rw [if_pos hn] at hacc
            simp only at hacc
            by_contra hs
            simp [hs] at hacc
          · rw [if_neg hn] at hacc
            exact absurd hacc (hpre c hc)
      _ ≤ 1 := countP_sender_le_one _ received hnd

/-- Claim C2 (amended): for every execution of the decision pass on a buffer
whose entries come from pairwise-distinct senders — one proposal per
counterparty, as in a round where each search hit is a distinct agent — and
whose slots, as the handler maintains them, hold only `none` or DECLINE
before the pass, the pass yields `#accept + #decline = #received` and
`#accept ≤ 1`.  (Conservation needs no sender hypothesis; the at-most-one-
accept part does, because the pass marks winners by sender equality.) -/
theorem c2_conservation_amended (s : Strategy) (received : List ReceivedProposal)
    (hnd : (received.map (fun c => c.sender)).Nodup)
    (hpre : ∀ c ∈ received,
      c.decision = none ∨ c.decision = some Performative.decline) :
    num_accept (decision_pass s received) + num_decline (decision_pass s received)
      = received.length ∧
    num_accept (decision_pass s received) ≤ 1 := by
  constructor
  · rw [accept_add_decline (decision_pass s received)
      (decision_pass_all_decided s received hpre)]
    exact decision_pass_length s received
  · refine num_accept_pass_le_one s received hnd ?_
    intro c hc
    rcases hpre c hc with h | h <;> simp [h]

/-- Counterexample to claim C2 as stated: with `sent = [x, x]` — two CFPs to
the same counterparty, as successive searches can produce — and two
undecided proposals from `x`, the barrier fires and the pass marks BOTH
ACCEPT, because the winner is identified by sender equality; so
`#accept ≤ 1` fails on a completed round. -/
theorem c2_conservation_counterexample :
    (handle_propose demoStrategy dsAllCfp
        (handle_propose demoStrategy dsAllCfp twoSentToX msgX5).state
        msgX7).decision_ran = true ∧
    ¬ (num_accept_replies
        (handle_propose demoStrategy dsAllCfp
          (handle_propose demoStrategy dsAllCfp twoSentToX msgX5).state
          msgX7).replies ≤ 1) := by
  constructor
  · decide
  · decide

/-- Witness for the amended C2 at a concrete pass: three pending proposals
from distinct senders yield one ACCEPT and two DECLINEs. -/
theorem c2_conservation_witness :
    (([rpX5, rpY9].map (fun c => c.sender)).Nodup ∧
      ∀ c ∈ [rpX5, rpY9],
        c.decision = none ∨ c.decision = some Performative.decline) ∧
    num_accept (decision_pass demoStrategy [rpX5, rpY9])
        + num_decline (decision_pass demoStrategy [rpX5, rpY9]) = 2 ∧
    num_accept (decision_pass demoStrategy [rpX5, rpY9]) ≤ 1 :=
  ⟨⟨by decide, by decide⟩,
   c2_conservation_amended demoStrategy [rpX5, rpY9] (by decide) (by decide)⟩

/-- Claim C3 (amended): when the pending proposals at the barrier come from
pairwise-distinct senders, the decision pass marks exactly the proposal the
policy's cheapest function selects ACCEPT, and every other entry — every
other pending one included — DECLINE.  `ch` abbreviates the policy's pick;
requiring `ch ∈ pending` states the policy contract that `cheapest` returns
one of its arguments. -/
theorem c3_winner_amended (s : Strategy) (received : List ReceivedProposal)
    (ch : ReceivedProposal)
    (hch : ch = s.get_cheapest_proposal
      (received.filter (fun x => x.decision = none)))
    (hnd : (received.map (fun c => c.sender)).Nodup)
    (hpre : ∀ c ∈ received,
      c.decision = none ∨ c.decision = some Performative.decline)
    (hmem : ch ∈ received.filter (fun x => x.decision = none)) :
    ({ sender := ch.sender, message := ch.message,
       decision := some Performative.accept } ∈ decision_pass s received) ∧
    num_accept (decision_pass s received) = 1 ∧
    (∀ c ∈ decision_pass s received, c.sender ≠ ch.sender →
      c.decision = some Performative.decline) := by
  have hmem' := List.mem_filter.mp hmem
  have hnone : ch.decision = none := by simpa using hmem'.2
  have hne : ¬ ((received.filter
      (fun x => x.decision = none)).isEmpty = true) := by
    rw [List.isEmpty_iff]
    intro hnil
    rw [hnil] at hmem
    simp at hmem
  have hle := num_accept_pass_le_one s received hnd (by
    intro c hc
    rcases hpre c hc with h | h <;> simp [h])
  have hpass : decision_pass s received
      = received.map (mark_against s received) := by
    simp only [decision_pass]
    rw [if_neg hne]
    rfl
  have hch_mark : mark_against s received ch
      = { sender := ch.sender, message := ch.message,
          decision := some Performative.accept } := by
    simp only [mark_against]
    rw [if_pos hnone, ← hch]
    simp
  have hch_mem : ({ sender := ch.sender, message := ch.message,
                    decision := some Performative.accept } : ReceivedProposal)
      ∈ decision_pass s received := by
    rw [hpass]
    exact List.mem_map.mpr ⟨ch, hmem'.1, hch_mark⟩
  refine ⟨hch_mem, ?_, ?_⟩
  · refine Nat.le_antisymm hle ?_
    have : 0 < num_accept (decision_pass s received) := by
      rw [num_accept, List.countP_pos_iff]
      exact ⟨_, hch_mem, by simp⟩
    omega
  · intro c hc hsc
    rw [hpass, List.mem_map] at hc
    obtain ⟨c0, hc0, hceq⟩ := hc
    subst hceq
    simp only [mark_against] at hsc ⊢
    by_cases hn : c0.decision = none
    · rw [if_pos hn] at hsc ⊢
      simp only [Option.some.injEq] at hsc ⊢
      rw [← hch]
      exact if_neg (fun hh => hsc hh.symm)
    · rw [if_neg hn] at hsc ⊢
      rcases hpre c0 hc0 with h | h
      · exact absurd h hn
      · exact h

/-- Counterexample to claim C3 as stated: with pending proposals
`[x:5, x:7, y:9]` — two of them from the same counterparty `x` — the pass
marks BOTH proposals from `x` ACCEPT, the non-minimal `x:7` included,
because marking goes by sender equality with the cheapest pick; so "every
other pending proposal is declined" fails. -/
theorem c3_winner_counterexample :
    decision_pass demoStrategy [rpX5, rpX7, rpY9]
      = [ { rpX5 with decision := some Performative.accept },
          { rpX7 with decision := some Performative.accept },
          { rpY9 with decision := some Performative.decline } ] ∧
    ¬ (num_accept (decision_pass demoStrategy [rpX5, rpX7, rpY9]) ≤ 1) := by
  constructor
  · decide
  · decide

/-- Witness for the amended C3 at the spec's P5 scenario: pending costs
`a:15, b:9, c:11` from distinct senders — `b` is selected and accepted,
`a` and `c` are declined. -/
theorem c3_winner_witness :
    (rpB9 = demoStrategy.get_cheapest_proposal
        ([rpA15, rpB9, rpC11].filter (fun x => x.decision = none))) ∧
    ({ sender := rpB9.sender, message := rpB9.message,
       decision := some Performative.accept }
      ∈ decision_pass demoStrategy [rpA15, rpB9, rpC11]) ∧
    num_accept (decision_pass demoStrategy [rpA15, rpB9, rpC11]) = 1 ∧
    (∀ c ∈ decision_pass demoStrategy [rpA15, rpB9, rpC11],
      c.sender ≠ rpB9.sender → c.decision = some Performative.decline) := by
  have h := c3_winner_amended demoStrategy [rpA15, rpB9, rpC11] rpB9
    (by decide) (by decide) (by decide) (by decide)
  exact ⟨by decide, h.1, h.2.1, h.2.2⟩

/-! Reply fan-out -/

theorem send_step_replies (s : Strategy) (acc : (Nat → Dialogue) × List Reply)
    (c : ReceivedProposal) :
    (send_step s acc c).2 = acc.2 ++ [reply_of s acc.1 c] := by
  simp only [send_step, reply_of]
  by_cases h : c.decision = some Performative.accept <;> simp [h]

theorem send_step_store_other (s : Strategy) (acc : (Nat → Dialogue) × List Reply)
    (c : ReceivedProposal) (i : Nat) (h : i ≠ c.message.dialogueId) :
    (send_step s acc c).1 i = acc.1 i := by
  simp only [send_step]
  rw [if_neg h]

theorem send_step_store_self (s : Strategy) (acc : (Nat → Dialogue) × List Reply)
    (c : ReceivedProposal) :
    (send_step s acc c).1 c.message.dialogueId =
      (if c.decision = some Performative.accept
       then { acc.1 c.message.dialogueId with
              terms := some (s.terms_from_proposal c.message.proposal c.sender) }
       else acc.1 c.message.dialogueId) := by
  simp only [send_step]
  by_cases h : c.decision = some Performative.accept <;> simp [h]

/-- Behaviour of the `_handle_propose_send` loop over a buffer with
pairwise-distinct dialogue ids: the replies come out as one per entry in
order, dialogues outside the buffer are untouched, and each entry's
dialogue ends with terms attached exactly when the entry was accepted. -/
theorem send_fold_spec (s : Strategy) (l : List ReceivedProposal)
    (ds : Nat → Dialogue) (acc : List Reply)
    (hnd : (l.map (fun c => c.message.dialogueId)).Nodup) :
    (l.foldl (send_step s) (ds, acc)).2 = acc ++ l.map (reply_of s ds) ∧
    (∀ i, i ∉ l.map (fun c => c.message.dialogueId) →
      (l.foldl (send_step s) (ds, acc)).1 i = ds i) ∧
    (∀ c ∈ l, (l.foldl (send_step s) (ds, acc)).1 c.message.dialogueId =
        (if c.decision = some Performative.accept
         then { ds c.message.dialogueId with
                terms := some (s.terms_from_proposal c.message.proposal c.sender) }
         else ds c.message.dialogueId)) := by
  induction l generalizing ds acc with
  | nil => simp
  | cons hd t ih =>
    rw [List.map_cons, List.nodup_cons] at hnd
    rw [List.foldl_cons]
    have hstep1 : (send_step s (ds, acc) hd).1 hd.message.dialogueId =
        (if hd.decision = some Performative.accept
         then { ds hd.message.dialogueId with
                terms := some (s.terms_from_proposal hd.message.proposal hd.sender) }
         else ds hd.message.dialogueId) := send_step_store_self s (ds, acc) hd
    have hstep2 : ∀ i, i ≠ hd.message.dialogueId →
        (send_step s (ds, acc) hd).1 i = ds i :=
      fun i hi => send_step_store_other s (ds, acc) hd i hi
    have hstepr : (send_step s (ds, acc) hd).2 = acc ++ [reply_of s ds hd] :=
      send_step_replies s (ds, acc) hd
    have ihx := ih (send_step s (ds, acc) hd).1 (send_step s (ds, acc) hd).2 hnd.2
    have hmapeq : t.map (reply_of s (send_step s (ds, acc) hd).1)
        = t.map (reply_of s ds) := by
      apply List.map_congr_left
      intro c hc
      have hid : c.message.dialogueId ≠ hd.message.dialogueId := by
        intro hh
        exact hnd.1 (hh ▸ List.mem_map_of_mem (fun c => c.message.dialogueId) hc)
      simp only [reply_of]
      rw [hstep2 c.message.dialogueId hid]
    refine ⟨?_, ?_, ?_⟩
    · rw [ihx.1, hmapeq, hstepr]
      simp
    · intro i hi
      rw [List.map_cons, List.mem_cons] at hi
      push_neg at hi
      rw [ihx.2.1 i hi.2]
      exact hstep2 i hi.1
    · intro c hc
      rcases List.mem_cons.mp hc with rfl | hct
      · rw [ihx.2.1 c.message.dialogueId hnd.1]
        exact hstep1
      · have hid : c.message.dialogueId ≠ hd.message.dialogueId := by
          intro hh
          exact hnd.1 (hh ▸ List.mem_map_of_mem (fun c => c.message.dialogueId) hct)
        rw [ihx.2.2 c hct, hstep2 c.message.dialogueId hid]

/-- Claim C7: `_handle_propose_send` over a buffer of proposals belonging to
pairwise-distinct dialogues emits exactly one reply per received proposal,
in original arrival order, each carrying the entry's decision and targeting
the buffered message; the accepted entries' dialogues carry the
strategy-computed terms (already attached when the reply is built, per
`reply_of`), and the non-accepted entries' dialogues get no terms
attached. -/
theorem c7_reply_fanout (s : Strategy) (ds : Nat → Dialogue)
    (st : StrategyState)
    (hnd : (st.received_proposals.map (fun c => c.message.dialogueId)).Nodup) :
    (handle_propose_send s ds st).replies
      = st.received_proposals.map (reply_of s ds) ∧
    (∀ c ∈ st.received_proposals, c.decision = some Performative.accept →
      ((handle_propose_send s ds st).dialogues c.message.dialogueId).terms
        = some (s.terms_from_proposal c.message.proposal c.sender) ∧
      (reply_of s ds c).dialogueTermsAtBuild
        = some (s.terms_from_proposal c.message.proposal c.sender)) ∧
    (∀ c ∈ st.received_proposals, c.decision ≠ some Performative.accept →
      ((handle_propose_send s ds st).dialogues c.message.dialogueId).terms
        = (ds c.message.dialogueId).terms) := by
  have h := send_fold_spec s st.received_proposals ds [] hnd
  refine ⟨?_, ?_, ?_⟩
  · have hr : (handle_propose_send s ds st).replies
        = (st.received_proposals.foldl (send_step s) (ds, [])).2 := rfl
    rw [hr, h.1]
    simp
  · intro c hc hacc
    have hd : (handle_propose_send s ds st).dialogues
        = (st.received_proposals.foldl (send_step s) (ds, [])).1 := rfl
    constructor
    · rw [hd, h.2.2 c hc, if_pos hacc]
    · simp only [reply_of]
      rw [if_pos hacc]
  · intro c hc hacc
    have hd : (handle_propose_send s ds st).dialogues
        = (st.received_proposals.foldl (send_step s) (ds, [])).1 := rfl
    rw [hd, h.2.2 c hc, if_neg hacc]

/-- Witness for C7 at a concrete completed round: an accepted entry from `x`
and a declined entry from `y` produce two ordered replies; `x`'s dialogue
gets the terms, `y`'s does not. -/
theorem c7_reply_fanout_witness :
    (([ { rpX5 with decision := some Performative.accept },
        { rpY9 with decision := some Performative.decline } ].map
          (fun c => c.message.dialogueId)).Nodup) ∧
    (handle_propose_send demoStrategy dsAllCfp
        { sent_proposals := ["x", "y"],
          received_proposals :=
            [ { rpX5 with decision := some Performative.accept },
              { rpY9 with decision := some Performative.decline } ],
          is_searching := false }).replies
      = [ { rpX5 with decision := some Performative.accept },
          { rpY9 with decision := some Performative.decline } ].map
            (reply_of demoStrategy dsAllCfp) ∧
    ((handle_propose_send demoStrategy dsAllCfp
        { sent_proposals := ["x", "y"],
          received_proposals :=
            [ { rpX5 with decision := some Performative.accept },
              { rpY9 with decision := some Performative.decline } ],
          is_searching := false }).dialogues msgX5.dialogueId).terms
      = some (demoStrategy.terms_from_proposal msgX5.proposal "x") ∧
    ((handle_propose_send demoStrategy dsAllCfp
        { sent_proposals := ["x", "y"],
          received_proposals :=
            [ { rpX5 with decision := some Performative.accept },
              { rpY9 with decision := some Performative.decline } ],
          is_searching := false }).dialogues msgY9.dialogueId).terms
      = (dsAllCfp msgY9.dialogueId).terms := by
  have h := c7_reply_fanout demoStrategy dsAllCfp
    { sent_proposals := ["x", "y"],
      received_proposals :=
        [ { rpX5 with decision := some Performative.accept },
          { rpY9 with decision := some Performative.decline } ],
      is_searching := false } (by decide)
  refine ⟨by decide, h.1, ?_, ?_⟩
  · exact (h.2.1 { rpX5 with decision := some Performative.accept }
      (by simp) (by decide)).1
  · exact h.2.2 { rpY9 with decision := some Performative.decline }
      (by simp) (by decide)

/-- Claim C6 (against the spec-modelled dispatch layer): a proposal is
buffered — the call succeeds and appends exactly one entry to the received
buffer — iff its dialogue exists and is in state CFP_SENT; a proposal for an
existing dialogue not in CFP_SENT fails with ProtocolViolation and nothing
is buffered. -/
theorem c6_buffer_guard (s : Strategy) (ds : Nat → Option Dialogue)
    (st : StrategyState) (m : FipaMsg) :
    ((∃ r, on_proposal_received s ds st m = Except.ok r) ↔
      (∃ d, ds m.dialogueId = some d ∧ d.state = DialogueState.cfpSent)) ∧
    (∀ d, ds m.dialogueId = some d → d.state ≠ DialogueState.cfpSent →
      on_proposal_received s ds st m
        = Except.error HandlerError.protocolViolation) ∧
    (ds m.dialogueId = none →
      on_proposal_received s ds st m
        = Except.error HandlerError.unknownDialogue) ∧
    (∀ ds2 st2, on_proposal_received s ds st m = Except.ok (ds2, st2) →
      ∃ e, st2.received_proposals = st.received_proposals ++ [e]) := by
  simp only [on_proposal_received]
  cases hd : ds m.dialogueId with
  | none =>
    simp only [Option.elim_none]
    refine ⟨?_, ?_, fun _ => trivial, ?_⟩
    · constructor
      · rintro ⟨r, hr⟩
        simp at hr
      · rintro ⟨d, hdd, _⟩
        simp at hdd
    · intro d hdd
      simp at hdd
    · intro ds2 st2 hok
      simp at hok
  | some d =>
    simp only [Option.elim_some]
    by_cases hs : d.state = DialogueState.cfpSent
    · rw [if_pos hs]
      refine ⟨?_, ?_, ?_, ?_⟩
      · constructor
        · intro _
          exact ⟨d, rfl, hs⟩
        · intro _
          exact ⟨_, rfl⟩
      · intro d2 hdd hne
        rw [Option.some.injEq] at hdd
        exact absurd (hdd ▸ hs) hne
      · intro hnone
        simp at hnone
      · intro ds2 st2 hok
        rw [Except.ok.injEq, Prod.mk.injEq] at hok
        obtain ⟨hds, hst⟩ := hok
        subst hst
        exact ⟨_, rfl⟩
    · rw [if_neg hs]
      refine ⟨?_, fun _ _ _ => rfl, ?_, ?_⟩
      · constructor
        · rintro ⟨r, hr⟩
          simp at hr
        · rintro ⟨d2, hdd, hs2⟩
          rw [Option.some.injEq] at hdd
          exact absurd (hdd ▸ hs2) hs
      · intro hnone
        simp at hnone
      · intro ds2 st2 hok
        simp at hok

/-- Witness for C6: a dialogue that already consumed its proposal makes the
next PROPOSE a protocol violation, while a CFP_SENT dialogue lets the
proposal be buffered. -/
theorem c6_buffer_guard_witness :
    on_proposal_received demoStrategy dsAllProposeReceived twoSentToX msgX5
      = Except.error HandlerError.protocolViolation ∧
    (∃ r, on_proposal_received demoStrategy dsAllCfpOpt twoSentToX msgX5
      = Except.ok r) :=
  ⟨(c6_buffer_guard demoStrategy dsAllProposeReceived twoSentToX msgX5).2.1
      { state := DialogueState.proposeReceived, terms := none } rfl (by decide),
   (c6_buffer_guard demoStrategy dsAllCfpOpt twoSentToX msgX5).1.mpr
      ⟨{ state := DialogueState.cfpSent, terms := none }, rfl, rfl⟩⟩

end Carpark

namespace RegistryClient

/-- Claim C9 (against the spec-modelled client): `request_api` returns the
parsed body exactly for 2xx statuses; every non-2xx status — 400, 403, 404,
409 and 500 included — yields a user-facing CLI error, a 409 carrying the
server's `detail` field; a connection failure also yields a CLI error.  The
modelled call is a single attempt, so nothing is retried. -/
theorem c9_request_api_errors (status : Nat) (b : JsonBody) :
    (200 ≤ status ∧ status < 300 →
      request_api (HttpOutcome.response status b) = Except.ok b) ∧
    (¬ (200 ≤ status ∧ status < 300) →
      ∃ e, request_api (HttpOutcome.response status b) = Except.error e) ∧
    (request_api (HttpOutcome.response 409 b)
      = Except.error (CliError.conflictDetail (detail_of b))) ∧
    (request_api HttpOutcome.connectionFailure
      = Except.error CliError.connectionFailed) := by
  refine ⟨?_, ?_, ?_, rfl⟩
  · intro h
    simp only [request_api]
    rw [if_pos h]
  · intro h
    simp only [request_api]
    rw [if_neg h]
    by_cases h409 : status = 409
    · rw [if_pos h409]
      exact ⟨_, rfl⟩
    · rw [if_neg h409]
      exact ⟨_, rfl⟩
  · simp only [request_api]
    rw [if_neg (by omega)]
    simp

/-- Witness for C9: a 201 returns the body; 404 and 500 error; 409 surfaces
the detail field; a connection failure errors. -/
theorem c9_request_api_witness :
    (200 ≤ 201 ∧ 201 < 300) ∧
    request_api (HttpOutcome.response 201 [("correct", "json")])
      = Except.ok [("correct", "json")] ∧
    (∃ e, request_api (HttpOutcome.response 404 [])
      = Except.error e) ∧
    (∃ e, request_api (HttpOutcome.response 500 [])
      = Except.error e) ∧
    request_api (HttpOutcome.response 409 [("detail", "some")])
      = Except.error (CliError.conflictDetail (some "some")) ∧
    request_api HttpOutcome.connectionFailure
      = Except.error CliError.connectionFailed := by
  refine ⟨by omega, ?_, ?_, ?_, ?_, ?_⟩
  · exact (c9_request_api_errors 201 [("correct", "json")]).1 (by omega)
  · exact (c9_request_api_errors 404 []).2.1 (by omega)
  · exact (c9_request_api_errors 500 []).2.1 (by omega)
  · have h := (c9_request_api_errors 409 [("detail", "some")]).2.2.1
    rw [h]
    rfl
  · exact (c9_request_api_errors 0 []).2.2.2

end RegistryClient
